import Mathlib

/-!
# oldComparison: persistence store, remote API client, periodic collector, HTTP facade

A shallow embedding of the Go sources

* `repository/repository.go` (schema, `InsertUser`, `InsertData`, `FetchGenresData`),
* `models/models.go`, `spotify/spotify.go` (`Client`, `Initialize`, `makeRequest`,
  `FetchTopArtistsWithParsing`, `PeriodicallyFetchData`),
* `handlers.go` (`NewHandler`, `topArtistsHandler`, `callback`) and `main.go`.

Tables are lists of rows in insertion order.  Everything the program obtains from
outside (statement failures of the storage engine, the clock, the HTTP transport,
the JSON library, the iteration order of a Go map, the tie order of `sort.Slice`)
is an explicit argument.
-/

set_option autoImplicit false
set_option linter.dupNamespace false

/-! ## repository/repository.go -/

namespace repository

/-- The Go struct `repository.Artist`; also a row of table `artists`
(`id TEXT PRIMARY KEY, name, popularity, followers`). -/
structure Artist where
  ID : String
  Name : String
  Popularity : Int
  Followers : Int
deriving DecidableEq, Repr

/-- A row of table `users` (`id TEXT PRIMARY KEY, username`). -/
structure UserRow where
  id : String
  username : String
deriving DecidableEq, Repr

/-- A row of table `genres` (`artist_id, genre`); the schema declares a foreign key on
`artist_id` and neither a primary key nor a UNIQUE constraint. -/
structure GenreRow where
  artist_id : String
  genre : String
deriving DecidableEq, Repr

/-- A row of table `user_artists`
(`user_id, artist_id, rank, timestamp, PRIMARY KEY (user_id, artist_id)`). -/
structure UserArtistRow where
  user_id : String
  artist_id : String
  rank : Nat
  timestamp : String
deriving DecidableEq, Repr

/-- The committed content of the four tables created by `InitializeDB`. -/
structure DB where
  users : List UserRow
  artists : List Artist
  genres : List GenreRow
  user_artists : List UserArtistRow
deriving DecidableEq, Repr

/-- The error returned by a repository call, named after the step that failed. -/
inductive StorageError where
  | begin
  | location
  | exec (n : Nat)
  | commit
  | query
deriving DecidableEq, Repr

/-- How a Go call ends: `nil`, a non-nil `error`, or a run-time panic. -/
inductive Result where
  | ok
  | error (e : StorageError)
  | panic
deriving DecidableEq, Repr

/-- What the storage engine and the host do to one `InsertData` call: whether `DB.Begin`
fails, whether `time.LoadLocation` fails, whether the `n`-th `tx.Exec` of the call
(counted from 0) fails, whether `tx.Commit` fails. -/
structure Faults where
  beginFails : Bool
  locationFails : Bool
  execFails : Nat → Bool
  commitFails : Bool

/-- The statement `INSERT OR REPLACE` on a table whose key is `key`: the rows in conflict with the
new row are deleted and the new row is added. -/
def insertOrReplace {α κ : Type} [DecidableEq κ] (key : α → κ) (rows : List α) (r : α) :
    List α :=
  rows.filter (fun x => decide (key x ≠ key r)) ++ [r]

/-- The statement `INSERT OR IGNORE` on a table whose key is `key`: a row in conflict with an
existing row is dropped. -/
def insertOrIgnore {α κ : Type} [DecidableEq κ] (key : α → κ) (rows : List α) (r : α) :
    List α :=
  if key r ∈ rows.map key then rows else rows ++ [r]

/-- Key of `artists`: `id`. -/
def artistKey (a : Artist) : String := a.ID

/-- Key of `user_artists`: `(user_id, artist_id)`. -/
def userArtistKey (r : UserArtistRow) : String × String := (r.user_id, r.artist_id)

/-- The statement `INSERT OR REPLACE INTO artists (id, name, popularity, followers) VALUES (?, ?, ?, ?)`. -/
def execInsertArtist (tx : DB) (a : Artist) : DB :=
  { tx with artists := insertOrReplace artistKey tx.artists a }

/-- The statement `INSERT OR IGNORE INTO genres (artist_id, genre) VALUES (?, ?)`: table `genres` has
no key, so no row is ever in conflict and the row is always added. -/
def execInsertGenre (artistID : String) (tx : DB) (genre : String) : DB :=
  { tx with genres := tx.genres ++ [⟨artistID, genre⟩] }

/-- The statement `INSERT OR REPLACE INTO user_artists (user_id, artist_id, rank, timestamp)
VALUES (?, ?, ?, ?)`. -/
def execInsertUserArtist (tx : DB) (r : UserArtistRow) : DB :=
  { tx with user_artists := insertOrReplace userArtistKey tx.user_artists r }

/-- The method `InsertUser`: `INSERT OR IGNORE INTO users (id, username) VALUES (?, ?)`. -/
def InsertUser (execFails : Bool) (db : DB) (userID username : String) : DB × Result :=
  if execFails then (db, .error (.exec 0))
  else ({ db with users := insertOrIgnore UserRow.id db.users ⟨userID, username⟩ }, .ok)

/-- The inner loop of `InsertData`, `for _, genre := range genres[i]`, from statement
number `n` on: `none` when an `Exec` fails, else the transaction's state and the
number of the next statement. -/
def insertGenres (execFails : Nat → Bool) (artistID : String) :
    List String → Nat → DB → Option (DB × Nat)
  | [], n, tx => some (tx, n)
  | genre :: rest, n, tx =>
    if execFails n then none
    else insertGenres execFails artistID rest (n + 1) (execInsertGenre artistID tx genre)

/-- How the loop of `InsertData` ends. -/
inductive LoopResult where
  | done (tx : DB)
  | failed (e : StorageError)
  | panicked
deriving DecidableEq, Repr

/-- The loop `for i, artist := range artists` of `InsertData`, entered at index `i` with
the remaining artists, the current `rank`, the number `n` of the next statement and the
state `tx` of the open transaction. `genres[i]` is read after the artist row has been
written and panics when `i` is out of range. -/
def insertLoop (execFails : Nat → Bool) (userID timestamp : String)
    (genres : List (List String)) : List Artist → Nat → Nat → Nat → DB → LoopResult
  | [], _, _, _, tx => .done tx
  | artist :: rest, i, rank, n, tx =>
    if execFails n then .failed (.exec n)
    else
      match genres[i]? with
      | none => .panicked
      | some gs =>
        match insertGenres execFails artist.ID gs (n + 1) (execInsertArtist tx artist) with
        | none => .failed (.exec (n + 1))
        | some (tx2, n2) =>
          if execFails n2 then .failed (.exec n2)
          else
            insertLoop execFails userID timestamp genres rest (i + 1) (rank + 1) (n2 + 1)
              (execInsertUserArtist tx2 ⟨userID, artist.ID, rank, timestamp⟩)

/-- The method `SpotifyRepository.InsertData`. `now` is `time.Now().In(location)` in the layout
`2006-01-02 15:04:05`, read once before the loop. The first component is the committed
store after the call: the transaction's state after `Commit`, the store as it was after
`Rollback` and on every other path. -/
def InsertData (f : Faults) (now : String) (db : DB) (userID : String)
    (artists : List Artist) (genres : List (List String)) : DB × Result :=
  if f.beginFails then (db, .error .begin)
  else if f.locationFails then (db, .error .location)
  else
    match insertLoop f.execFails userID now genres artists 0 1 0 db with
    | .done tx => if f.commitFails then (db, .error .commit) else (tx, .ok)
    | .failed e => (db, .error e)
    | .panicked => (db, .panic)

/-- The function `FetchGenresData`: `SELECT genre, COUNT(genre) as count FROM genres GROUP BY genre`
read into a Go map, here the list of its entries (one per distinct genre). -/
def FetchGenresData (queryFails : Bool) (db : DB) : Except StorageError (List (String × Nat)) :=
  if queryFails then .error .query
  else
    let col := db.genres.map GenreRow.genre
    .ok (col.dedup.map (fun g => (g, col.count g)))

/-- The value `genres[g]` of the Go map returned by `FetchGenresData` (0 for a missing
key, as Go reads a map). -/
def genreCountOf (m : Except StorageError (List (String × Nat))) (g : String) : Nat :=
  match m with
  | .ok entries => ((entries.lookup g).getD 0)
  | .error _ => 0

/-- The number of `tx.Exec` calls of a whole batch: two per artist and one per genre. -/
def numExec : List Artist → List (List String) → Nat
  | _ :: as, g :: gs => g.length + 2 + numExec as gs
  | _, _ => 0

/-- The genre rows a batch writes, in order. -/
def genreRows : List Artist → List (List String) → List GenreRow
  | a :: as, g :: gs => g.map (fun x => ⟨a.ID, x⟩) ++ genreRows as gs
  | _, _ => []

/-- The ranking rows a batch writes, in order, the first with rank `rank`. -/
def rankingRows (userID timestamp : String) : List Artist → Nat → List UserArtistRow
  | [], _ => []
  | a :: as, rank => ⟨userID, a.ID, rank, timestamp⟩ :: rankingRows userID timestamp as (rank + 1)

/-- No fault hits the call. -/
def noFaults : Faults := ⟨false, false, fun _ => false, false⟩

/-- The empty store, as `InitializeDB` leaves a fresh database file. -/
def emptyDB : DB := ⟨[], [], [], []⟩

end repository

/-! ## Calls, events and the Go runtime -/

/-- An error value of the client and the handlers, named after the place it is made. -/
inductive Err where
  | httpClientNil
  | onRequest (cause : String)
  | readingResponse
  | unexpectedStatus (code : Nat)
  | json (cause : String)
  | exchange (cause : String)
  | storage (e : repository.StorageError)
deriving DecidableEq, Repr

/-- How a Go call returning `(value, error)` ends: it returns the pair, or it panics. -/
inductive Outcome (α : Type) where
  | returned (value : α) (err : Option Err)
  | panic
deriving DecidableEq, Repr

/-- What the program does that is visible from outside a function, in order. -/
inductive Event where
  | print (text : String)
  | log (text : String)
  | sleepMinutes (n : Nat)
  | fetchTopArtists
  | makeRequest (url : String)
  | httpDo (url : String) (authorization : String)
  | insertData (userID : String)
  | tokenExchange (code : String)
  | clientInitialize (accessToken : String)
  | redirect (location : String) (status : Nat)
deriving DecidableEq, Repr

/-! ## models/models.go -/

namespace models

/-- The Go struct `models.Artist`, with the fields the program reads (`Followers` is
`Followers.Total`, `Type_` is `Type`; `ExternalURLs` and `Images` are never read). -/
structure Artist where
  Followers : Int
  Genres : List String
  Href : String
  ID : String
  Name : String
  Popularity : Int
  Type_ : String
  URI : String
deriving DecidableEq, Repr

/-- The Go struct `models.TopArtistsResponse`. -/
structure TopArtistsResponse where
  Items : List Artist
  Total : Int
  Limit : Int
  Offset : Int
  Href : String
  Next : String
  Previous : String
deriving DecidableEq, Repr

/-- The function `UnmarshalTopArtists`: `json.Unmarshal(data, &r)` and `return r, err`; the decoder
of `encoding/json` is the argument `unmarshal`. -/
def UnmarshalTopArtists (unmarshal : String → TopArtistsResponse × Option String)
    (data : String) : TopArtistsResponse × Option Err :=
  let r := unmarshal data
  (r.1, r.2.map Err.json)

end models

/-! ## spotify/spotify.go -/

namespace spotify

/-- The Go struct `oauth2.Token`, with the field the program reads. -/
structure Token where
  AccessToken : String
deriving DecidableEq, Repr

/-- An HTTP response as the client reads it: the status code, and the body that
`io.ReadAll` returns (`none` when reading fails). -/
structure Response where
  StatusCode : Nat
  Body : Option String
deriving DecidableEq, Repr

/-- A Go `*http.Client`: what `Do` returns for a GET request to `url` carrying the
given `Authorization` header. -/
structure HTTPClient where
  Do : String → String → Except String Response

/-- The Go struct `spotify.UserProfile`. -/
structure UserProfile where
  ID : String
  DisplayName : String
deriving DecidableEq, Repr

/-- The Go struct `spotify.Client`. `Token` and `Client` are pointers, `none` for nil.
The field `Repository` is the `SpotifyRepository` built in `main`; its store is
passed to the functions that use it. -/
structure Client where
  ClientID : String
  ClientSecret : String
  Token : Option Token
  Client : Option HTTPClient
  UserID : String
  Username : String

/-- The library calls of the client: `json.Indent` into a fresh buffer,
`json.Unmarshal` into a `TopArtistsResponse` and into a `UserProfile`,
`oauth2.NewClient` on a static token source, `Config.Exchange`. -/
structure Lib where
  jsonIndent : String → String
  unmarshalTopArtists : String → models.TopArtistsResponse × Option String
  unmarshalProfile : String → Except String UserProfile
  oauth2NewClient : Token → HTTPClient
  exchange : String → Except String Token

/-- The URL of `fetchUserProfile`. -/
def meURL : String := "https://api.spotify.com/v1/me"

/-- The URL of `FetchTopArtistsWithParsing`. -/
def topArtistsURL : String := "https://api.spotify.com/v1/me/top/artists"

/-- The method `Client.fetchUserProfile`, called by `Initialize` right after it has set `Token`
and `Client`. -/
def fetchUserProfile (lib : Lib) (c : Client) : List Event × Outcome UserProfile :=
  match c.Token, c.Client with
  | none, _ => ([], .panic)
  | some _, none => ([], .panic)
  | some token, some httpClient =>
    let auth := "Bearer " ++ token.AccessToken
    match httpClient.Do meURL auth with
    | .error e => ([.httpDo meURL auth], .returned ⟨"", ""⟩ (some (.onRequest e)))
    | .ok resp =>
      if resp.StatusCode ≠ 200 then
        ([.httpDo meURL auth], .returned ⟨"", ""⟩ (some (.unexpectedStatus resp.StatusCode)))
      else
        match resp.Body with
        | none => ([.httpDo meURL auth], .returned ⟨"", ""⟩ (some .readingResponse))
        | some body =>
          match lib.unmarshalProfile body with
          | .error e => ([.httpDo meURL auth], .returned ⟨"", ""⟩ (some (.json e)))
          | .ok profile => ([.httpDo meURL auth], .returned profile none)

/-- The method `Client.Initialize`: the updated client (the receiver is a pointer), the store, the
events and the returned error. -/
def Initialize (lib : Lib) (insertUserFails : Bool) (c : Client) (db : repository.DB)
    (token : Token) : Client × repository.DB × List Event × Outcome Unit :=
  let c1 := { c with Token := some token, Client := some (lib.oauth2NewClient token) }
  match fetchUserProfile lib c1 with
  | (ev, .panic) => (c1, db, ev, .panic)
  | (ev, .returned _ (some e)) => (c1, db, ev, .returned () (some e))
  | (ev, .returned profile none) =>
    let c2 := { c1 with UserID := profile.ID, Username := profile.DisplayName }
    match repository.InsertUser insertUserFails db c2.UserID c2.Username with
    | (db2, .ok) => (c2, db2, ev, .returned () none)
    | (db2, .error e) => (c2, db2, ev, .returned () (some (.storage e)))
    | (db2, .panic) => (c2, db2, ev, .panic)

/-- The method `Client.makeRequest`. The status code of the response is never read. -/
def makeRequest (lib : Lib) (c : Client) (url : String) : List Event × Outcome String :=
  match c.Client with
  | none => ([.makeRequest url], .returned "" (some .httpClientNil))
  | some httpClient =>
    match c.Token with
    | none => ([.makeRequest url], .panic)
    | some token =>
      let auth := "Bearer " ++ token.AccessToken
      let ev := (if token.AccessToken = "" then [Event.print "token is empty"] else [])
        ++ [Event.httpDo url auth]
      match httpClient.Do url auth with
      | .error e => (.makeRequest url :: ev, .returned "" (some (.onRequest e)))
      | .ok resp =>
        match resp.Body with
        | none => (.makeRequest url :: ev, .returned "" (some .readingResponse))
        | some body => (.makeRequest url :: ev, .returned (lib.jsonIndent body) none)

/-- The zero value of `models.TopArtistsResponse`. -/
def emptyResponse : models.TopArtistsResponse := ⟨[], 0, 0, 0, "", "", ""⟩

/-- The method `Client.FetchTopArtistsWithParsing`. -/
def FetchTopArtistsWithParsing (lib : Lib) (c : Client) :
    List Event × Outcome models.TopArtistsResponse :=
  match makeRequest lib c topArtistsURL with
  | (ev, .panic) => (.fetchTopArtists :: ev, .panic)
  | (ev, .returned _ (some e)) => (.fetchTopArtists :: ev, .returned emptyResponse (some e))
  | (ev, .returned data none) =>
    let r := models.UnmarshalTopArtists lib.unmarshalTopArtists data
    (.fetchTopArtists :: ev, .returned r.1 r.2)

/-- The function `convertToRepositoryArtist` (the same function in `spotify.go` and `handlers.go`). -/
def convertToRepositoryArtist (artist : models.Artist) : repository.Artist :=
  ⟨artist.ID, artist.Name, artist.Popularity, artist.Followers⟩

/-- How one pass through the body of the loop of `PeriodicallyFetchData` ends: at the
next pass, or in a panic of the goroutine. -/
inductive Pass where
  | next
  | panicked
deriving DecidableEq, Repr

/-- One pass through the body of the `for` loop of `Client.PeriodicallyFetchData`; the
receiver `c` is a pointer, `none` for nil. -/
def PeriodicallyFetchData (lib : Lib) (f : repository.Faults) (now : String)
    (c : Option Client) (db : repository.DB) : List Event × repository.DB × Pass :=
  match c with
  | none => ([.log "Spotify client not initialized yet", .sleepMinutes 1], db, .next)
  | some cl =>
    match FetchTopArtistsWithParsing lib cl with
    | (ev, .panic) => (ev, db, .panicked)
    | (ev, .returned _ (some _)) => (ev ++ [.log "Error fetching top artists"], db, .next)
    | (ev, .returned topArtists none) =>
      let artists := topArtists.Items.map convertToRepositoryArtist
      let genres := topArtists.Items.map models.Artist.Genres
      match repository.InsertData f now db cl.UserID artists genres with
      | (db2, .ok) => (ev ++ [.insertData cl.UserID, .sleepMinutes 60], db2, .next)
      | (db2, .error _) =>
        (ev ++ [.insertData cl.UserID, .log "Error inserting data", .sleepMinutes 60], db2, .next)
      | (db2, .panic) => (ev ++ [.insertData cl.UserID], db2, .panicked)

end spotify

/-! ## handlers.go and main.go (package main) -/

namespace server

/-- The local struct `genre` of `topArtistsHandler`. -/
structure genre where
  Name : String
  Count : Nat
deriving DecidableEq, Repr

/-- The two places where the Go runtime chooses an order: the order in which
`for name, count := range genreCount` visits the entries of the map (given here in
the order the keys were first stored), and the slice `sort.Slice` leaves for a
comparison function. -/
structure GoRuntime where
  mapRange : List (String × Nat) → List (String × Nat)
  sortSlice : (genre → genre → Bool) → List genre → List genre

/-- A comparison function as `sort.Slice` expects it: a strict weak ordering. -/
def IsStrictWeak (less : genre → genre → Bool) : Prop :=
  (∀ a, less a a = false) ∧
  (∀ a b c, less a b = true → less b c = true → less a c = true) ∧
  (∀ a b c, less a b = true → less a c = true ∨ less c b = true)

/-- What Go promises of the two choices: a `range` over a map visits every entry once,
in an unspecified order; `sort.Slice` rearranges the slice so that no element is less
than an element before it, and is not guaranteed to be stable. -/
def GoRuntime.Valid (rt : GoRuntime) : Prop :=
  (∀ m, (rt.mapRange m).Perm m) ∧
  (∀ less l, (rt.sortSlice less l).Perm l) ∧
  (∀ less l, IsStrictWeak less → (rt.sortSlice less l).Pairwise (fun a b => less b a = false))

/-- A stable sort: insertion into the sorted rest. -/
def stableSort (less : genre → genre → Bool) (l : List genre) : List genre :=
  l.insertionSort (fun a b => less b a = false)

/-- A runtime whose `range` visits the keys in the order they were first stored. -/
def storedOrderRuntime : GoRuntime := ⟨id, stableSort⟩

/-- A runtime whose `range` visits the keys in the reverse of that order. -/
def reversedOrderRuntime : GoRuntime := ⟨List.reverse, stableSort⟩

/-- A runtime whose `range` visits the entries in the order `target` whenever `target`
is an arrangement of the map's entries. -/
def chosenOrderRuntime (target : List (String × Nat)) : GoRuntime :=
  ⟨fun m => if m.Perm target then target else m, stableSort⟩

/-- The statement `genreCount[genre]++` on a Go `map[string]int`, kept as the list of its entries. -/
def mapIncr : List (String × Nat) → String → List (String × Nat)
  | [], k => [(k, 1)]
  | (k2, v) :: rest, k => if k2 = k then (k2, v + 1) :: rest else (k2, v) :: mapIncr rest k

/-- The map `genreCount` of `topArtistsHandler` after the two nested loops over
`topArtists.Items` and `artist.Genres`. -/
def genreCount (items : List models.Artist) : List (String × Nat) :=
  items.foldl (fun m artist => artist.Genres.foldl mapIncr m) []

/-- Invariant of the counting loops: the map holds, for the genres `l` read so far, one entry per distinct genre with the
number of its occurrences. -/
def Counts (m : List (String × Nat)) (l : List String) : Prop :=
  (m.map Prod.fst).Nodup ∧ (∀ e ∈ m, e.2 = l.count e.1 ∧ e.1 ∈ l) ∧
    (∀ g ∈ l, g ∈ m.map Prod.fst)

/-- The comparison function of `sort.Slice` in `topArtistsHandler`:
`genresSlice[i].Count > genresSlice[j].Count`. -/
def countGreater (a b : genre) : Bool := decide (a.Count > b.Count)

/-- The slice `genresSlice` of `topArtistsHandler` after `sort.Slice`. -/
def genresSlice (rt : GoRuntime) (items : List models.Artist) : List genre :=
  rt.sortSlice countGreater ((rt.mapRange (genreCount items)).map (fun e => ⟨e.1, e.2⟩))

/-- Every genre of the remote response, in the order of the response. -/
def remoteGenres (items : List models.Artist) : List String :=
  (items.map models.Artist.Genres).flatten

/-- The tie rule as the specification words it: of two entries with equal counts, the
one before the other is the one whose genre appears first in the remote response. -/
def tiesInRemoteOrder (items : List models.Artist) (out : List genre) : Prop :=
  out.Pairwise (fun a b => a.Count = b.Count →
    (remoteGenres items).indexOf a.Name < (remoteGenres items).indexOf b.Name)

/-- The Go struct `Handler`: `Client` is a `spotify.Client` value, not a pointer.
(`SpotifyService` is never read.) -/
structure Handler where
  Client : spotify.Client

/-- The function `NewHandler(service, cl)`: the handler's `Client` is `*cl`, the value `cl` points
to at the time of the call. -/
def NewHandler (cl : spotify.Client) : Handler := ⟨cl⟩

/-- What a handler writes to the `http.ResponseWriter`. -/
inductive Reply where
  | httpError (text : String) (cause : Option Err) (status : Nat)
  | topArtists (artists : List repository.Artist) (genres : List genre)
  | redirect (location : String) (status : Nat)
  | panic
deriving DecidableEq, Repr

/-- The method `Handler.topArtistsHandler`. -/
def topArtistsHandler (rt : GoRuntime) (lib : spotify.Lib) (f : repository.Faults)
    (now : String) (h : Handler) (db : repository.DB) :
    repository.DB × List Event × Reply :=
  match spotify.FetchTopArtistsWithParsing lib h.Client with
  | (ev, .panic) => (db, ev, .panic)
  | (ev, .returned _ (some e)) => (db, ev, .httpError "" (some e) 500)
  | (ev, .returned topArtists none) =>
    let artists := topArtists.Items.map spotify.convertToRepositoryArtist
    let genres := topArtists.Items.map models.Artist.Genres
    match repository.InsertData f now db h.Client.UserID artists genres with
    | (db2, .panic) => (db2, ev ++ [.insertData h.Client.UserID], .panic)
    | (db2, .error e) =>
      (db2, ev ++ [.insertData h.Client.UserID], .httpError "" (some (.storage e)) 500)
    | (db2, .ok) =>
      (db2, ev ++ [.insertData h.Client.UserID],
        .topArtists artists (genresSlice rt topArtists.Items))

/-- The call `r.URL.Query().Get(key)`: the first value of `key` in the query string, the empty
string when there is none. -/
def queryGet (query : List (String × String)) (key : String) : String :=
  match query.find? (fun p => p.1 = key) with
  | some p => p.2
  | none => ""

/-- The method `Handler.callback`; `h` is a pointer, so the handler is returned as the call
leaves it. -/
def callback (lib : spotify.Lib) (insertUserFails : Bool) (h : Handler)
    (db : repository.DB) (query : List (String × String)) :
    Handler × repository.DB × List Event × Reply :=
  let code := queryGet query "code"
  if code = "" then (h, db, [.print "bise"], .httpError "Code not provided" none 400)
  else
    match lib.exchange code with
    | .error e =>
      (h, db, [.print "bise", .tokenExchange code],
        .httpError "Failed to exchange token" (some (.exchange e)) 500)
    | .ok token =>
      match spotify.Initialize lib insertUserFails h.Client db token with
      | (c, db2, ev, .panic) =>
        (⟨c⟩, db2, [.print "bise", .tokenExchange code, .clientInitialize token.AccessToken] ++ ev,
          .panic)
      | (c, db2, ev, .returned _ (some e)) =>
        (⟨c⟩, db2, [.print "bise", .tokenExchange code, .clientInitialize token.AccessToken] ++ ev,
          .httpError "Failed to initialize Spotify client" (some e) 500)
      | (c, db2, ev, .returned _ none) =>
        (⟨c⟩, db2,
          [.print "bise", .tokenExchange code, .clientInitialize token.AccessToken] ++ ev
            ++ [.redirect "/top-artists" 302],
          .redirect "/top-artists" 302)

/-- The remote response of the specification's example: artist a1 with genres rock and
pop, artist a2 with genre pop. -/
def exampleItems : List models.Artist :=
  [⟨0, ["rock", "pop"], "", "a1", "", 0, "", ""⟩, ⟨0, ["pop"], "", "a2", "", 0, "", ""⟩]

/-- A remote response with one artist, a1 with genres rock and pop. -/
def tiedItems : List models.Artist := [⟨0, ["rock", "pop"], "", "a1", "", 0, "", ""⟩]

/-- A remote side that answers every request with the given status and body. -/
def answering (status : Nat) (body : String) : spotify.HTTPClient :=
  ⟨fun _ _ => .ok ⟨status, some body⟩⟩

/-- Library calls for a run in which every body decodes to the response with the given
items and to the profile of user `u`, and every code is exchanged for the token `tok`. -/
def decodingTo (items : List models.Artist) : spotify.Lib :=
  ⟨id, fun _ => (⟨items, 0, 0, 0, "", "", ""⟩, none), fun _ => .ok ⟨"u", "User"⟩,
    fun _ => answering 200 "", fun _ => .ok ⟨"tok"⟩⟩

/-- A client that `Initialize` has completed on. -/
def initializedClient : spotify.Client :=
  ⟨"id", "secret", some ⟨"tok"⟩, some (answering 200 ""), "u", "User"⟩

/-- The variables of `main` that the goroutines share: `spotifyClient` (the collector
runs on its address), the handler returned by `NewHandler` (the routes run on it) and
the store behind `dbConn`. -/
structure Program where
  spotifyClient : spotify.Client
  spotifyHandler : Handler
  dbConn : repository.DB

/-- The function `main` up to the start of the collector: `spotifyClient` is built without a token,
with `Client: &http.Client{}`, and handed to `NewHandler`. -/
def main (clientID clientSecret : String) (httpClient : spotify.HTTPClient)
    (db : repository.DB) : Program :=
  let spotifyClient : spotify.Client := ⟨clientID, clientSecret, none, some httpClient, "", ""⟩
  ⟨spotifyClient, NewHandler spotifyClient, db⟩

/-- A request to `/callback` served by the running program. -/
def Program.serveCallback (p : Program) (lib : spotify.Lib) (insertUserFails : Bool)
    (query : List (String × String)) : Program × List Event × Reply :=
  match callback lib insertUserFails p.spotifyHandler p.dbConn query with
  | (h, db, ev, reply) => (⟨p.spotifyClient, h, db⟩, ev, reply)

/-- One pass of the collector started by `go spotifyClient.PeriodicallyFetchData()`. -/
def Program.collectorPass (p : Program) (lib : spotify.Lib) (f : repository.Faults)
    (now : String) : Program × List Event × spotify.Pass :=
  match spotify.PeriodicallyFetchData lib f now (some p.spotifyClient) p.dbConn with
  | (ev, db, pass) => (⟨p.spotifyClient, p.spotifyHandler, db⟩, ev, pass)

end server

/-! ## Lemmas on keyed tables -/

namespace repository

section Keyed

variable {α κ : Type} [DecidableEq κ] (key : α → κ)

theorem filter_insertOrReplace_self (rows : List α) (r : α) :
    (insertOrReplace key rows r).filter (fun x => decide (key x = key r)) = [r] := by
  have h : (rows.filter (fun x => decide (key x ≠ key r))).filter
      (fun x => decide (key x = key r)) = [] := by
    rw [List.filter_filter, List.filter_eq_nil_iff]
    intro x _; simp
  simp [insertOrReplace, List.filter_append, h]

theorem filter_insertOrReplace_of_ne (rows : List α) (r : α) (k : κ) (hk : key r ≠ k) :
    (insertOrReplace key rows r).filter (fun x => decide (key x = k))
      = rows.filter (fun x => decide (key x = k)) := by
  have h : (rows.filter (fun x => decide (key x ≠ key r))).filter
      (fun x => decide (key x = k)) = rows.filter (fun x => decide (key x = k)) := by
    rw [List.filter_filter]
    apply List.filter_congr
    intro x _
    by_cases hx : key x = k
    · have : key x ≠ key r := fun e => hk (e ▸ hx)
      simp [hx, this, hk]
      exact fun e => hk e.symm
    · simp [hx]
  unfold insertOrReplace
  rw [List.filter_append, h]
  simp [hk]

theorem filter_foldl_insertOrReplace_of_not_mem (rs : List α) (rows : List α) (k : κ)
    (hk : k ∉ rs.map key) :
    (rs.foldl (insertOrReplace key) rows).filter (fun x => decide (key x = k))
      = rows.filter (fun x => decide (key x = k)) := by
  induction rs generalizing rows with
  | nil => rfl
  | cons r rs ih =>
    simp only [List.map_cons, List.mem_cons, not_or] at hk
    rw [List.foldl_cons, ih _ hk.2, filter_insertOrReplace_of_ne key rows r k (Ne.symm hk.1)]

theorem filter_foldl_insertOrReplace_last (l₁ l₂ : List α) (r : α) (rows : List α)
    (hk : key r ∉ l₂.map key) :
    ((l₁ ++ r :: l₂).foldl (insertOrReplace key) rows).filter
      (fun x => decide (key x = key r)) = [r] := by
  rw [List.foldl_append, List.foldl_cons, filter_foldl_insertOrReplace_of_not_mem key l₂ _ _ hk,
    filter_insertOrReplace_self]

theorem exists_last_of_mem_map (rs : List α) (k : κ) (hk : k ∈ rs.map key) :
    ∃ l₁ r l₂, rs = l₁ ++ r :: l₂ ∧ key r = k ∧ k ∉ l₂.map key := by
  induction rs with
  | nil => simp at hk
  | cons a rs ih =>
    by_cases h : k ∈ rs.map key
    · obtain ⟨l₁, r, l₂, e, hr, hl⟩ := ih h
      exact ⟨a :: l₁, r, l₂, by simp [e], hr, hl⟩
    · simp only [List.map_cons, List.mem_cons] at hk
      rcases hk with hk | hk
      · exact ⟨[], a, rs, rfl, hk.symm, h⟩
      · exact absurd hk h

theorem nodup_keys_insertOrReplace (rows : List α) (r : α) (h : (rows.map key).Nodup) :
    ((insertOrReplace key rows r).map key).Nodup := by
  unfold insertOrReplace
  rw [List.map_append, List.nodup_append]
  refine ⟨?_, by simp, ?_⟩
  · exact h.sublist ((List.filter_sublist _).map key)
  · intro a ha hb
    simp only [List.map_cons, List.map_nil, List.mem_singleton] at hb
    subst hb
    simp only [List.mem_map, List.mem_filter] at ha
    obtain ⟨x, ⟨_, hx⟩, e⟩ := ha
    simp [e] at hx

theorem nodup_keys_foldl_insertOrReplace (rs rows : List α) (h : (rows.map key).Nodup) :
    ((rs.foldl (insertOrReplace key) rows).map key).Nodup := by
  induction rs generalizing rows with
  | nil => exact h
  | cons r rs ih => exact ih _ (nodup_keys_insertOrReplace key rows r h)

end Keyed

end repository

/-! ## Lemmas on the loop of `InsertData` -/

namespace repository

theorem drop_of_getElem? {β : Type} (l : List β) (i : Nat) (x : β) (h : l[i]? = some x) :
    l.drop i = x :: l.drop (i + 1) := by
  obtain ⟨hi, rfl⟩ := List.getElem?_eq_some.1 h
  exact List.drop_eq_getElem_cons hi

theorem drop_of_getElem?_none {β : Type} (l : List β) (i : Nat) (h : l[i]? = none) :
    l.drop i = [] := by
  rw [List.getElem?_eq_none_iff] at h
  exact List.drop_of_length_le h

theorem insertGenres_some (ef : Nat → Bool) (artistID : String) (gs : List String) (n : Nat)
    (tx tx2 : DB) (n2 : Nat) (h : insertGenres ef artistID gs n tx = some (tx2, n2)) :
    n2 = n + gs.length ∧
    tx2 = { tx with genres := tx.genres ++ gs.map (fun g => ⟨artistID, g⟩) } ∧
    ∀ k, k < gs.length → ef (n + k) = false := by
  induction gs generalizing n tx with
  | nil =>
    simp only [insertGenres, Option.some.injEq, Prod.mk.injEq] at h
    obtain ⟨rfl, rfl⟩ := h
    simp
  | cons g gs ih =>
    simp only [insertGenres] at h
    split at h
    · exact absurd h (by simp)
    · rename_i hn
      obtain ⟨e1, e2, e3⟩ := ih _ _ h
      refine ⟨by simp [e1]; omega, by simp [e2, execInsertGenre], ?_⟩
      intro k hk
      cases k with
      | zero => simpa using hn
      | succ k =>
        have := e3 k (by simpa using hk)
        rwa [show n + (k + 1) = n + 1 + k by omega]

theorem insertGenres_none (ef : Nat → Bool) (artistID : String) (gs : List String) (n : Nat)
    (tx : DB) (h : insertGenres ef artistID gs n tx = none) :
    ∃ k, k < gs.length ∧ ef (n + k) = true := by
  induction gs generalizing n tx with
  | nil => simp [insertGenres] at h
  | cons g gs ih =>
    simp only [insertGenres] at h
    split at h
    · rename_i hn
      exact ⟨0, by simp, by simpa using hn⟩
    · obtain ⟨k, hk, hf⟩ := ih _ _ h
      exact ⟨k + 1, by simpa using hk, by rwa [show n + (k + 1) = n + 1 + k by omega]⟩

/-- What a completed loop has done: it met no failing statement, and the transaction
holds exactly the writes of the batch. -/
theorem insertLoop_done (ef : Nat → Bool) (userID ts : String) (genres : List (List String))
    (as : List Artist) (i rank n : Nat) (tx tx2 : DB)
    (h : insertLoop ef userID ts genres as i rank n tx = .done tx2) :
    as.length ≤ (genres.drop i).length ∧
    (∀ k, k < numExec as (genres.drop i) → ef (n + k) = false) ∧
    tx2.users = tx.users ∧
    tx2.artists = as.foldl (insertOrReplace artistKey) tx.artists ∧
    tx2.genres = tx.genres ++ genreRows as (genres.drop i) ∧
    tx2.user_artists =
      (rankingRows userID ts as rank).foldl (insertOrReplace userArtistKey) tx.user_artists := by
  induction as generalizing i rank n tx with
  | nil =>
    simp only [insertLoop, LoopResult.done.injEq] at h
    subst h
    simp [numExec, genreRows, rankingRows]
  | cons a rest ih =>
    simp only [insertLoop] at h
    split at h
    · exact absurd h (by simp)
    · rename_i hn
      split at h
      · exact absurd h (by simp)
      · rename_i gs hgs
        split at h
        · exact absurd h (by simp)
        · rename_i txg n2 hg
          split at h
          · exact absurd h (by simp)
          · rename_i hn2
            obtain ⟨e1, e2, e3⟩ := insertGenres_some _ _ _ _ _ _ _ hg
            obtain ⟨h1, h2, h3, h4, h5, h6⟩ := ih _ _ _ _ h
            rw [drop_of_getElem? genres i gs hgs]
            subst e1 e2
            refine ⟨by simpa using h1, ?_, ?_, ?_, ?_, ?_⟩
            · intro k hk
              simp only [numExec] at hk
              by_cases hk0 : k = 0
              · subst hk0; simpa using hn
              · by_cases hk1 : k < gs.length + 1
                · have := e3 (k - 1) (by omega)
                  rwa [show n + 1 + (k - 1) = n + k by omega] at this
                · by_cases hk2 : k = gs.length + 1
                  · subst hk2
                    rw [show n + (gs.length + 1) = n + 1 + gs.length by omega]
                    simpa using hn2
                  · have := h2 (k - (gs.length + 2)) (by omega)
                    rwa [show n + 1 + gs.length + 1 + (k - (gs.length + 2)) = n + k by omega]
                      at this
            · simpa [execInsertUserArtist, execInsertArtist] using h3
            · simpa [execInsertUserArtist, execInsertArtist] using h4
            · simpa [execInsertUserArtist, execInsertArtist, genreRows, List.append_assoc]
                using h5
            · simpa [execInsertUserArtist, execInsertArtist, rankingRows] using h6

/-- A loop that ends in an error met a failing statement among those of the batch. -/
theorem insertLoop_failed (ef : Nat → Bool) (userID ts : String) (genres : List (List String))
    (as : List Artist) (i rank n : Nat) (tx : DB) (e : StorageError)
    (hlen : as.length ≤ (genres.drop i).length)
    (h : insertLoop ef userID ts genres as i rank n tx = .failed e) :
    ∃ k, k < numExec as (genres.drop i) ∧ ef (n + k) = true := by
  induction as generalizing i rank n tx with
  | nil => simp [insertLoop] at h
  | cons a rest ih =>
    simp only [insertLoop] at h
    split at h
    · rename_i hn
      cases hd : genres.drop i with
      | nil => simp [hd] at hlen
      | cons g gs2 => exact ⟨0, by simp [numExec], by simpa using hn⟩
    · split at h
      · exact absurd h (by simp)
      · rename_i gs hgs
        rw [drop_of_getElem? genres i gs hgs] at hlen ⊢
        split at h
        · rename_i hg
          obtain ⟨k, hk, hf⟩ := insertGenres_none _ _ _ _ _ hg
          exact ⟨k + 1, by simp [numExec]; omega,
            by rwa [show n + (k + 1) = n + 1 + k by omega]⟩
        · rename_i txg n2 hg
          obtain ⟨e1, _, _⟩ := insertGenres_some _ _ _ _ _ _ _ hg
          subst e1
          split at h
          · rename_i hn2
            exact ⟨gs.length + 1, by simp [numExec]; omega,
              by rw [show n + (gs.length + 1) = n + 1 + gs.length by omega]; simpa using hn2⟩
          · obtain ⟨k, hk, hf⟩ := ih _ _ _ _ (by simpa using hlen) h
            exact ⟨k + (gs.length + 2), by simp [numExec]; omega,
              by rwa [show n + (k + (gs.length + 2)) = n + 1 + gs.length + 1 + k by omega]⟩

/-- A loop panics only when `genres` is shorter than `artists`. -/
theorem insertLoop_panicked (ef : Nat → Bool) (userID ts : String)
    (genres : List (List String)) (as : List Artist) (i rank n : Nat) (tx : DB)
    (h : insertLoop ef userID ts genres as i rank n tx = .panicked) :
    (genres.drop i).length < as.length := by
  induction as generalizing i rank n tx with
  | nil => simp [insertLoop] at h
  | cons a rest ih =>
    simp only [insertLoop] at h
    split at h
    · exact absurd h (by simp)
    · split at h
      · rename_i hgs
        simp [drop_of_getElem?_none genres i hgs]
      · rename_i gs hgs
        rw [drop_of_getElem? genres i gs hgs]
        split at h
        · exact absurd h (by simp)
        · split at h
          · exact absurd h (by simp)
          · have := ih _ _ _ _ h
            simpa using this

end repository

/-! ## Lemmas on the rows of a batch -/

namespace repository

theorem InsertData_eq_ok (f : Faults) (now : String) (db db2 : DB) (userID : String)
    (artists : List Artist) (genres : List (List String))
    (h : InsertData f now db userID artists genres = (db2, .ok)) :
    insertLoop f.execFails userID now genres artists 0 1 0 db = .done db2 := by
  unfold InsertData at h
  split at h
  · simp at h
  · split at h
    · simp at h
    · split at h
      · rename_i tx htx
        split at h
        · simp at h
        · simp only [Prod.mk.injEq, and_true] at h
          rw [htx, h]
      · simp at h
      · simp at h

theorem split_of_getElem? {β : Type} (l : List β) (j : Nat) (a : β) (h : l[j]? = some a) :
    ∃ l₁ l₂, l = l₁ ++ a :: l₂ ∧ l₁.length = j := by
  induction l generalizing j with
  | nil => simp at h
  | cons x l ih =>
    cases j with
    | zero =>
      simp only [List.getElem?_cons_zero, Option.some.injEq] at h
      exact ⟨[], l, by simp [h], rfl⟩
    | succ j =>
      simp only [List.getElem?_cons_succ] at h
      obtain ⟨l₁, l₂, e, hl⟩ := ih j h
      exact ⟨x :: l₁, l₂, by simp [e], by simp [hl]⟩

theorem rankingRows_append (userID ts : String) (l₁ l₂ : List Artist) (rank : Nat) :
    rankingRows userID ts (l₁ ++ l₂) rank
      = rankingRows userID ts l₁ rank ++ rankingRows userID ts l₂ (rank + l₁.length) := by
  induction l₁ generalizing rank with
  | nil => simp [rankingRows]
  | cons a l₁ ih =>
    have e : rank + (l₁.length + 1) = rank + 1 + l₁.length := by omega
    rw [List.cons_append, rankingRows, rankingRows, ih, List.length_cons, e, List.cons_append]

theorem map_key_rankingRows (userID ts : String) (l : List Artist) (rank : Nat) :
    (rankingRows userID ts l rank).map userArtistKey = l.map (fun a => (userID, a.ID)) := by
  induction l generalizing rank with
  | nil => rfl
  | cons a l ih => simp [rankingRows, ih, userArtistKey]

theorem mem_genreRows (as : List Artist) (gss : List (List String)) (j : Nat) (a : Artist)
    (gs : List String) (g : String) (ha : as[j]? = some a) (hg : gss[j]? = some gs)
    (hmem : g ∈ gs) : (⟨a.ID, g⟩ : GenreRow) ∈ genreRows as gss := by
  induction as generalizing gss j with
  | nil => simp at ha
  | cons x as ih =>
    cases gss with
    | nil => simp at hg
    | cons y gss =>
      cases j with
      | zero =>
        simp only [List.getElem?_cons_zero, Option.some.injEq] at ha hg
        subst ha hg
        simp only [genreRows, List.mem_append, List.mem_map]
        exact Or.inl ⟨g, hmem, rfl⟩
      | succ j =>
        simp only [List.getElem?_cons_succ] at ha hg
        simp only [genreRows, List.mem_append]
        exact Or.inr (ih gss j ha hg)

/-- The ranking row of the artist at position `l₁.length` of a batch is the only row of
its key after the batch, when no later artist of the batch has the same id. -/
theorem filter_rankingRows_last (userID ts : String) (l₁ l₂ : List Artist) (a : Artist)
    (rank : Nat) (rows : List UserArtistRow) (hk : a.ID ∉ l₂.map Artist.ID) :
    ((rankingRows userID ts (l₁ ++ a :: l₂) rank).foldl
        (insertOrReplace userArtistKey) rows).filter
      (fun r => decide (userArtistKey r = (userID, a.ID)))
      = [⟨userID, a.ID, rank + l₁.length, ts⟩] := by
  rw [rankingRows_append]
  simp only [rankingRows]
  have hk2 : userArtistKey ⟨userID, a.ID, rank + l₁.length, ts⟩ ∉
      (rankingRows userID ts l₂ (rank + l₁.length + 1)).map userArtistKey := by
    rw [map_key_rankingRows]
    simp only [userArtistKey, List.mem_map, Prod.mk.injEq, true_and, not_exists, not_and]
    intro b hb e
    exact hk (List.mem_map.2 ⟨b, hb, e⟩)
  exact filter_foldl_insertOrReplace_last userArtistKey _ _ _ rows hk2

theorem filter_artists_last (l₁ l₂ : List Artist) (a : Artist) (rows : List Artist)
    (hk : a.ID ∉ l₂.map Artist.ID) :
    ((l₁ ++ a :: l₂).foldl (insertOrReplace artistKey) rows).filter
      (fun r => decide (r.ID = a.ID)) = [a] :=
  filter_foldl_insertOrReplace_last artistKey l₁ l₂ a rows hk

theorem not_mem_later (l₁ l₂ : List Artist) (a : Artist)
    (h : ∀ k b, l₁.length < k → (l₁ ++ a :: l₂)[k]? = some b → b.ID ≠ a.ID) :
    a.ID ∉ l₂.map Artist.ID := by
  intro hmem
  obtain ⟨b, hb, e⟩ := List.mem_map.1 hmem
  obtain ⟨m, hm, rfl⟩ := List.getElem_of_mem hb
  refine h (l₁.length + 1 + m) l₂[m] (by omega) ?_ e
  rw [List.getElem?_append_right (by omega)]
  rw [show l₁.length + 1 + m - l₁.length = m + 1 by omega]
  simp [hm]

end repository

/-! ## Claims on the persistence store -/

namespace repository

/-- C1 (as stated, refuted): a batch that names the artist id `x` twice goes through
without any failing statement, and the artist row and the ranking row of its first
entry are not in the committed store. -/
theorem InsertData_first_of_repeated_id_not_kept :
    (InsertData noFaults "t" emptyDB "u" [⟨"x", "A", 1, 1⟩, ⟨"x", "B", 2, 2⟩] [[], []]).2
        = .ok ∧
    ¬ (∀ a ∈ [(⟨"x", "A", 1, 1⟩ : Artist), ⟨"x", "B", 2, 2⟩],
        a ∈ (InsertData noFaults "t" emptyDB "u"
          [⟨"x", "A", 1, 1⟩, ⟨"x", "B", 2, 2⟩] [[], []]).1.artists) ∧
    (⟨"u", "x", 1, "t"⟩ : UserArtistRow) ∉ (InsertData noFaults "t" emptyDB "u"
          [⟨"x", "A", 1, 1⟩, ⟨"x", "B", 2, 2⟩] [[], []]).1.user_artists := by
  decide

/-- C1 (amended): `InsertData` is atomic. For a batch with one genre list per artist:
if `Begin`, `LoadLocation`, any statement of the batch or `Commit` fails, the call
returns an error and the committed store is the store before the call; if none fails,
the call returns nil, every genre row of the batch is in the committed store, and so are
the artist row and the ranking row (rank = 1-based position, the call's timestamp) of
every artist whose id does not occur again later in the batch. -/
theorem InsertData_atomic (f : Faults) (now : String) (db : DB) (userID : String)
    (artists : List Artist) (genres : List (List String))
    (hlen : genres.length = artists.length) :
    ((f.beginFails = true ∨ f.locationFails = true ∨
        (∃ k, k < numExec artists genres ∧ f.execFails k = true) ∨ f.commitFails = true) →
      (∃ e, (InsertData f now db userID artists genres).2 = .error e) ∧
      (InsertData f now db userID artists genres).1 = db) ∧
    (¬ (f.beginFails = true ∨ f.locationFails = true ∨
        (∃ k, k < numExec artists genres ∧ f.execFails k = true) ∨ f.commitFails = true) →
      (InsertData f now db userID artists genres).2 = .ok ∧
      (∀ (j : Nat) (a : Artist) (gs : List String) (g : String),
        artists[j]? = some a → genres[j]? = some gs → g ∈ gs →
        (⟨a.ID, g⟩ : GenreRow) ∈ (InsertData f now db userID artists genres).1.genres) ∧
      (∀ (j : Nat) (a : Artist), artists[j]? = some a →
        (∀ (k : Nat) (b : Artist), j < k → artists[k]? = some b → b.ID ≠ a.ID) →
        a ∈ (InsertData f now db userID artists genres).1.artists ∧
        (⟨userID, a.ID, j + 1, now⟩ : UserArtistRow) ∈
          (InsertData f now db userID artists genres).1.user_artists)) := by
  have hlen2 : artists.length ≤ (genres.drop 0).length := by simp [hlen]
  constructor
  · intro hf
    unfold InsertData
    by_cases hb : f.beginFails = true
    · simp [hb]
    by_cases hl : f.locationFails = true
    · simp [hb, hl]
    simp only [hb, hl, if_false, Bool.false_eq_true]
    cases hloop : insertLoop f.execFails userID now genres artists 0 1 0 db with
    | done tx =>
      have hno := (insertLoop_done _ _ _ _ _ _ _ _ _ _ hloop).2.1
      rcases hf with h | h | ⟨k, hk, hfk⟩ | h
      · exact absurd h hb
      · exact absurd h hl
      · have := hno k (by simpa using hk)
        simp [hfk] at this
      · simp [h]
    | failed e => simp
    | panicked =>
      have := insertLoop_panicked _ _ _ _ _ _ _ _ _ hloop
      omega
  · intro hf
    simp only [not_or, not_exists, not_and, Bool.not_eq_true] at hf
    obtain ⟨hb, hl, hex, hc⟩ := hf
    have hdone : ∃ tx, insertLoop f.execFails userID now genres artists 0 1 0 db = .done tx := by
      cases hloop : insertLoop f.execFails userID now genres artists 0 1 0 db with
      | done tx => exact ⟨tx, rfl⟩
      | failed e =>
        obtain ⟨k, hk, hfk⟩ := insertLoop_failed _ _ _ _ _ _ _ _ _ _ hlen2 hloop
        have := hex k (by simpa using hk)
        simp [this] at hfk
      | panicked =>
        have := insertLoop_panicked _ _ _ _ _ _ _ _ _ hloop
        omega
    obtain ⟨tx, hloop⟩ := hdone
    have hres : InsertData f now db userID artists genres = (tx, .ok) := by
      simp [InsertData, hb, hl, hc, hloop]
    obtain ⟨_, _, _, hart, hgen, hua⟩ := insertLoop_done _ _ _ _ _ _ _ _ _ _ hloop
    rw [hres]
    refine ⟨rfl, ?_, ?_⟩
    · intro j a gs g ha hg hmem
      show (⟨a.ID, g⟩ : GenreRow) ∈ tx.genres
      rw [hgen]
      exact List.mem_append_right _ (mem_genreRows artists genres j a gs g ha hg hmem)
    · intro j a ha hlater
      obtain ⟨l₁, l₂, e, hj⟩ := split_of_getElem? artists j a ha
      subst hj
      have hk : a.ID ∉ l₂.map Artist.ID := not_mem_later l₁ l₂ a (by rw [← e]; exact hlater)
      constructor
      · show a ∈ tx.artists
        have := filter_artists_last l₁ l₂ a db.artists hk
        rw [← e, ← hart] at this
        have hm : a ∈ tx.artists.filter (fun r => decide (r.ID = a.ID)) := by simp [this]
        exact (List.mem_filter.1 hm).1
      · show (⟨userID, a.ID, l₁.length + 1, now⟩ : UserArtistRow) ∈ tx.user_artists
        have := filter_rankingRows_last userID now l₁ l₂ a 1 db.user_artists hk
        rw [← e, ← hua] at this
        have hm : (⟨userID, a.ID, 1 + l₁.length, now⟩ : UserArtistRow) ∈
            tx.user_artists.filter (fun r => decide (userArtistKey r = (userID, a.ID))) := by
          simp [this]
        rw [Nat.add_comm]
        exact (List.mem_filter.1 hm).1

/-- C1, at a concrete batch: one artist with two genres on the empty store. -/
theorem InsertData_atomic_witness :
    ([["rock", "pop"]] : List (List String)).length = [(⟨"a1", "A", 5, 7⟩ : Artist)].length ∧
    (¬ (noFaults.beginFails = true ∨ noFaults.locationFails = true ∨
        (∃ k, k < numExec [⟨"a1", "A", 5, 7⟩] [["rock", "pop"]] ∧ noFaults.execFails k = true)
          ∨ noFaults.commitFails = true) →
      (InsertData noFaults "t" emptyDB "u" [⟨"a1", "A", 5, 7⟩] [["rock", "pop"]]).2 = .ok) :=
  ⟨by decide, fun h =>
    ((InsertData_atomic noFaults "t" emptyDB "u" [⟨"a1", "A", 5, 7⟩] [["rock", "pop"]]
      (by decide)).2 h).1⟩

/-- C2 (evaluation of the code): on the empty store, inserting the pair (a1, pop) gives
`pop` the count 1, and inserting the identical pair again gives it the count 2. -/
theorem FetchGenresData_after_reinsert :
    genreCountOf (FetchGenresData false
      (InsertData noFaults "t1" emptyDB "u" [⟨"a1", "A", 5, 7⟩] [["pop"]]).1) "pop" = 1 ∧
    (InsertData noFaults "t2"
      (InsertData noFaults "t1" emptyDB "u" [⟨"a1", "A", 5, 7⟩] [["pop"]]).1
      "u" [⟨"a1", "A", 5, 7⟩] [["pop"]]).2 = .ok ∧
    genreCountOf (FetchGenresData false
      (InsertData noFaults "t2"
        (InsertData noFaults "t1" emptyDB "u" [⟨"a1", "A", 5, 7⟩] [["pop"]]).1
        "u" [⟨"a1", "A", 5, 7⟩] [["pop"]]).1) "pop" = 2 := by
  decide

end repository

namespace repository

/-- C6: artist upsert keyed by id. After a successful `InsertData`, for every artist of
the batch the table `artists` has exactly one row with its id, and that row is the
batch's last entry with that id (name, popularity and followers as given there); the
rows whose id is not in the batch are the same as before, none added, changed or
deleted. -/
theorem InsertData_artist_upsert (f : Faults) (now : String) (db db2 : DB) (userID : String)
    (artists : List Artist) (genres : List (List String))
    (h : InsertData f now db userID artists genres = (db2, .ok)) :
    (∀ (l₁ l₂ : List Artist) (a : Artist), artists = l₁ ++ a :: l₂ →
      a.ID ∉ l₂.map Artist.ID →
      db2.artists.filter (fun r => decide (r.ID = a.ID)) = [a]) ∧
    (∀ x, x ∈ artists.map Artist.ID →
      ∃ a, a ∈ artists ∧ a.ID = x ∧
        db2.artists.filter (fun r => decide (r.ID = x)) = [a]) ∧
    (∀ x, x ∉ artists.map Artist.ID →
      db2.artists.filter (fun r => decide (r.ID = x))
        = db.artists.filter (fun r => decide (r.ID = x))) ∧
    (∀ r, r ∈ db.artists → r.ID ∉ artists.map Artist.ID → r ∈ db2.artists) := by
  obtain ⟨_, _, _, hart, _, _⟩ :=
    insertLoop_done _ _ _ _ _ _ _ _ _ _ (InsertData_eq_ok f now db db2 userID artists genres h)
  have hlast : ∀ (l₁ l₂ : List Artist) (a : Artist), artists = l₁ ++ a :: l₂ →
      a.ID ∉ l₂.map Artist.ID →
      db2.artists.filter (fun r => decide (r.ID = a.ID)) = [a] := by
    intro l₁ l₂ a e hk
    rw [hart, e]
    exact filter_artists_last l₁ l₂ a db.artists hk
  have hframe : ∀ x, x ∉ artists.map Artist.ID →
      db2.artists.filter (fun r => decide (r.ID = x))
        = db.artists.filter (fun r => decide (r.ID = x)) := by
    intro x hx
    rw [hart]
    exact filter_foldl_insertOrReplace_of_not_mem artistKey artists db.artists x hx
  refine ⟨hlast, ?_, hframe, ?_⟩
  · intro x hx
    obtain ⟨l₁, a, l₂, e, ha, hk⟩ := exists_last_of_mem_map artistKey artists x hx
    have ha2 : a.ID = x := ha
    subst ha2
    exact ⟨a, by simp [e], rfl, hlast l₁ l₂ a e hk⟩
  · intro r hr hx
    have hm : r ∈ db.artists.filter (fun y => decide (y.ID = r.ID)) := by
      simp [List.mem_filter, hr]
    rw [← hframe r.ID hx] at hm
    exact (List.mem_filter.1 hm).1

/-- C6, at a concrete call: the store holds a1 and a2; the batch updates a1 twice. -/
theorem InsertData_artist_upsert_witness :
    InsertData noFaults "t" ⟨[], [⟨"a1", "Old", 1, 1⟩, ⟨"a2", "Other", 2, 2⟩], [], []⟩ "u"
        [⟨"a1", "Mid", 3, 3⟩, ⟨"a1", "New", 4, 4⟩] [[], []]
      = (⟨[], [⟨"a2", "Other", 2, 2⟩, ⟨"a1", "New", 4, 4⟩], [],
          [⟨"u", "a1", 2, "t"⟩]⟩, .ok) ∧
    (∀ r, r ∈ [(⟨"a1", "Old", 1, 1⟩ : Artist), ⟨"a2", "Other", 2, 2⟩] →
      r.ID ∉ [(⟨"a1", "Mid", 3, 3⟩ : Artist), ⟨"a1", "New", 4, 4⟩].map Artist.ID →
      r ∈ [(⟨"a2", "Other", 2, 2⟩ : Artist), ⟨"a1", "New", 4, 4⟩]) :=
  ⟨by decide,
    (InsertData_artist_upsert noFaults "t"
      ⟨[], [⟨"a1", "Old", 1, 1⟩, ⟨"a2", "Other", 2, 2⟩], [], []⟩
      ⟨[], [⟨"a2", "Other", 2, 2⟩, ⟨"a1", "New", 4, 4⟩], [], [⟨"u", "a1", 2, "t"⟩]⟩ "u"
      [⟨"a1", "Mid", 3, 3⟩, ⟨"a1", "New", 4, 4⟩] [[], []] (by decide)).2.2.2⟩

/-- C7: ranking rows are unique per (user, artist) and reflect the latest snapshot.
After two successive successful `InsertData` calls for the same user: the primary key
of `user_artists` stays unique when it was; every artist of either batch has exactly
one row for (user, artist); and when the ids of the second batch are distinct, the row
of its artist at position `j` (from 0) has rank `j + 1` and the second call's
timestamp. -/
theorem InsertData_twice_rankings (f1 f2 : Faults) (now1 now2 : String) (db0 db1 db2 : DB)
    (userID : String) (artists1 artists2 : List Artist) (genres1 genres2 : List (List String))
    (h1 : InsertData f1 now1 db0 userID artists1 genres1 = (db1, .ok))
    (h2 : InsertData f2 now2 db1 userID artists2 genres2 = (db2, .ok)) :
    ((db0.user_artists.map userArtistKey).Nodup →
      (db2.user_artists.map userArtistKey).Nodup) ∧
    (∀ a, a ∈ artists1 ∨ a ∈ artists2 →
      (db2.user_artists.filter
        (fun r => decide (userArtistKey r = (userID, a.ID)))).length = 1) ∧
    ((artists2.map Artist.ID).Nodup → ∀ (j : Nat) (a : Artist), artists2[j]? = some a →
      db2.user_artists.filter (fun r => decide (userArtistKey r = (userID, a.ID)))
        = [⟨userID, a.ID, j + 1, now2⟩]) := by
  obtain ⟨_, _, _, _, _, hua1⟩ :=
    insertLoop_done _ _ _ _ _ _ _ _ _ _ (InsertData_eq_ok f1 now1 db0 db1 userID _ _ h1)
  obtain ⟨_, _, _, _, _, hua2⟩ :=
    insertLoop_done _ _ _ _ _ _ _ _ _ _ (InsertData_eq_ok f2 now2 db1 db2 userID _ _ h2)
  have hone : ∀ (rows : List UserArtistRow) (as : List Artist) (ts : String) (a : Artist),
      a ∈ as →
      (((rankingRows userID ts as 1).foldl (insertOrReplace userArtistKey) rows).filter
        (fun r => decide (userArtistKey r = (userID, a.ID)))).length = 1 := by
    intro rows as ts a ha
    have hmem : (userID, a.ID) ∈ (rankingRows userID ts as 1).map userArtistKey := by
      rw [map_key_rankingRows]
      exact List.mem_map.2 ⟨a, ha, rfl⟩
    obtain ⟨l₁, r, l₂, e, hr, hk⟩ := exists_last_of_mem_map userArtistKey _ _ hmem
    rw [e, ← hr, filter_foldl_insertOrReplace_last userArtistKey l₁ l₂ r rows (by rw [hr]; exact hk)]
    rfl
  refine ⟨?_, ?_, ?_⟩
  · intro h0
    rw [hua2, hua1]
    exact nodup_keys_foldl_insertOrReplace _ _ _ (nodup_keys_foldl_insertOrReplace _ _ _ h0)
  · intro a ha
    by_cases h2mem : a ∈ artists2
    · rw [hua2]
      exact hone _ _ _ a h2mem
    · have h1mem : a ∈ artists1 := ha.resolve_right h2mem
      by_cases hid : (userID, a.ID) ∈ (rankingRows userID now2 artists2 1).map userArtistKey
      · rw [map_key_rankingRows] at hid
        obtain ⟨b, hb, e⟩ := List.mem_map.1 hid
        simp only [Prod.mk.injEq, true_and] at e
        rw [← e, hua2]
        exact hone _ _ _ b hb
      · rw [hua2, filter_foldl_insertOrReplace_of_not_mem userArtistKey _ _ _ hid, hua1]
        exact hone _ _ _ a h1mem
  · intro hnd j a ha
    obtain ⟨l₁, l₂, e, hj⟩ := split_of_getElem? artists2 j a ha
    subst hj
    have hk : a.ID ∉ l₂.map Artist.ID := by
      rw [e, List.map_append, List.map_cons] at hnd
      exact (List.nodup_cons.1 (List.nodup_append.1 hnd).2.1).1
    rw [hua2, e, filter_rankingRows_last userID now2 l₁ l₂ a 1 db1.user_artists hk,
      Nat.add_comm]

/-- C7, at two concrete calls: the second snapshot swaps the two artists of the first. -/
theorem InsertData_twice_rankings_witness :
    InsertData noFaults "t1" emptyDB "u" [⟨"a1", "A", 1, 1⟩, ⟨"a2", "B", 2, 2⟩] [[], []]
      = (⟨[], [⟨"a1", "A", 1, 1⟩, ⟨"a2", "B", 2, 2⟩], [],
          [⟨"u", "a1", 1, "t1"⟩, ⟨"u", "a2", 2, "t1"⟩]⟩, .ok) ∧
    InsertData noFaults "t2"
        ⟨[], [⟨"a1", "A", 1, 1⟩, ⟨"a2", "B", 2, 2⟩], [],
          [⟨"u", "a1", 1, "t1"⟩, ⟨"u", "a2", 2, "t1"⟩]⟩ "u"
        [⟨"a2", "B", 2, 2⟩, ⟨"a1", "A", 1, 1⟩] [[], []]
      = (⟨[], [⟨"a2", "B", 2, 2⟩, ⟨"a1", "A", 1, 1⟩], [],
          [⟨"u", "a2", 1, "t2"⟩, ⟨"u", "a1", 2, "t2"⟩]⟩, .ok) ∧
    ((([] : List UserArtistRow).map userArtistKey).Nodup →
      (([⟨"u", "a2", 1, "t2"⟩, ⟨"u", "a1", 2, "t2"⟩] : List UserArtistRow).map
        userArtistKey).Nodup) :=
  ⟨by decide, by decide,
    (InsertData_twice_rankings noFaults noFaults "t1" "t2" emptyDB
      ⟨[], [⟨"a1", "A", 1, 1⟩, ⟨"a2", "B", 2, 2⟩], [],
        [⟨"u", "a1", 1, "t1"⟩, ⟨"u", "a2", 2, "t1"⟩]⟩
      ⟨[], [⟨"a2", "B", 2, 2⟩, ⟨"a1", "A", 1, 1⟩], [],
        [⟨"u", "a2", 1, "t2"⟩, ⟨"u", "a1", 2, "t2"⟩]⟩ "u"
      [⟨"a1", "A", 1, 1⟩, ⟨"a2", "B", 2, 2⟩] [⟨"a2", "B", 2, 2⟩, ⟨"a1", "A", 1, 1⟩]
      [[], []] [[], []] (by decide) (by decide)).1⟩

end repository

/-! ## Lemmas on the genre ranking of `topArtistsHandler` -/

namespace server

theorem keys_mapIncr (m : List (String × Nat)) (k : String) :
    (mapIncr m k).map Prod.fst
      = if k ∈ m.map Prod.fst then m.map Prod.fst else m.map Prod.fst ++ [k] := by
  induction m with
  | nil => simp [mapIncr]
  | cons e rest ih =>
    obtain ⟨k2, v⟩ := e
    by_cases h : k2 = k
    · simp [mapIncr, h]
    · have h2 : ¬ k = k2 := fun e => h e.symm
      simp only [mapIncr, h, if_false, List.map_cons, ih, List.mem_cons, h2, false_or]
      split <;> simp

theorem mem_mapIncr (m : List (String × Nat)) (k : String) (hnd : (m.map Prod.fst).Nodup)
    (e : String × Nat) (he : e ∈ mapIncr m k) :
    (e.1 ≠ k ∧ e ∈ m) ∨
    (e.1 = k ∧ ((∃ v, (k, v) ∈ m ∧ e.2 = v + 1) ∨ (k ∉ m.map Prod.fst ∧ e.2 = 1))) := by
  induction m with
  | nil =>
    simp only [mapIncr, List.mem_singleton] at he
    subst he
    simp
  | cons x rest ih =>
    obtain ⟨k2, v⟩ := x
    simp only [List.map_cons, List.nodup_cons] at hnd
    by_cases h : k2 = k
    · subst h
      simp only [mapIncr, if_true, List.mem_cons] at he
      rcases he with he | he
      · subst he
        exact Or.inr ⟨rfl, Or.inl ⟨v, by simp, rfl⟩⟩
      · refine Or.inl ⟨?_, by simp [he]⟩
        intro e1
        exact hnd.1 (List.mem_map.2 ⟨e, he, e1⟩)
    · simp only [mapIncr, h, if_false, List.mem_cons] at he
      rcases he with he | he
      · subst he
        exact Or.inl ⟨h, by simp⟩
      · rcases ih hnd.2 he with ⟨h1, h2⟩ | ⟨h1, h2⟩
        · exact Or.inl ⟨h1, by simp [h2]⟩
        · refine Or.inr ⟨h1, ?_⟩
          rcases h2 with ⟨w, hw, e2⟩ | ⟨hk, e2⟩
          · exact Or.inl ⟨w, by simp [hw], e2⟩
          · refine Or.inr ⟨?_, e2⟩
            simp only [List.map_cons, List.mem_cons, not_or]
            exact ⟨fun e => h e.symm, hk⟩

theorem Counts_mapIncr (m : List (String × Nat)) (l : List String) (k : String)
    (h : Counts m l) : Counts (mapIncr m k) (l ++ [k]) := by
  obtain ⟨hnd, hval, hkeys⟩ := h
  refine ⟨?_, ?_, ?_⟩
  · rw [keys_mapIncr]
    split
    · exact hnd
    · rename_i hk
      rw [List.nodup_append]
      exact ⟨hnd, by simp, by
        intro a ha hb
        simp only [List.mem_singleton] at hb
        subst hb
        exact hk ha⟩
  · intro e he
    rcases mem_mapIncr m k hnd e he with ⟨h1, h2⟩ | ⟨h1, h2⟩
    · obtain ⟨e1, e2⟩ := hval e h2
      refine ⟨?_, by simp [e2]⟩
      rw [List.count_append, e1]
      simp [List.count_singleton, h1]
    · rcases h2 with ⟨w, hw, e2⟩ | ⟨hk, e2⟩
      · obtain ⟨e1, _⟩ := hval (k, w) hw
        simp only at e1
        refine ⟨?_, by simp [h1]⟩
        rw [List.count_append, e2, e1, h1]
        simp
      · have hkl : k ∉ l := fun hl => hk (hkeys k hl)
        refine ⟨?_, by simp [h1]⟩
        rw [List.count_append, e2, h1, List.count_eq_zero_of_not_mem hkl]
        simp
  · intro g hg
    rw [keys_mapIncr]
    simp only [List.mem_append, List.mem_singleton] at hg
    split
    · rename_i hk
      rcases hg with hg | hg
      · exact hkeys g hg
      · exact hg ▸ hk
    · rcases hg with hg | hg
      · exact List.mem_append_left _ (hkeys g hg)
      · simp [hg]

theorem Counts_foldl_mapIncr (gs : List String) (m : List (String × Nat)) (l : List String)
    (h : Counts m l) : Counts (gs.foldl mapIncr m) (l ++ gs) := by
  induction gs generalizing m l with
  | nil => simpa using h
  | cons g gs ih =>
    have := ih (mapIncr m g) (l ++ [g]) (Counts_mapIncr m l g h)
    simpa using this

theorem Counts_foldl_items (items : List models.Artist) (m : List (String × Nat))
    (l : List String) (h : Counts m l) :
    Counts (items.foldl (fun m artist => artist.Genres.foldl mapIncr m) m)
      (l ++ remoteGenres items) := by
  induction items generalizing m l with
  | nil => simpa [remoteGenres] using h
  | cons a items ih =>
    have := ih _ _ (Counts_foldl_mapIncr a.Genres m l h)
    simpa [remoteGenres, List.append_assoc] using this

theorem Counts_genreCount (items : List models.Artist) :
    Counts (genreCount items) (remoteGenres items) := by
  have := Counts_foldl_items items [] [] ⟨by simp, by simp, by simp⟩
  simpa [genreCount] using this

theorem isStrictWeak_countGreater : IsStrictWeak countGreater := by
  refine ⟨?_, ?_, ?_⟩
  · intro a; simp [countGreater]
  · intro a b c h1 h2
    simp only [countGreater, decide_eq_true_eq] at *
    omega
  · intro a b c h1
    simp only [countGreater, decide_eq_true_eq] at *
    omega

theorem stableSort_perm (less : genre → genre → Bool) (l : List genre) :
    (stableSort less l).Perm l :=
  List.perm_insertionSort _ l

theorem stableSort_sorted (less : genre → genre → Bool) (l : List genre)
    (h : IsStrictWeak less) :
    (stableSort less l).Pairwise (fun a b => less b a = false) := by
  obtain ⟨hirr, htrans, hneg⟩ := h
  haveI : IsTotal genre (fun a b => less b a = false) := ⟨by
    intro a b
    by_cases h1 : less b a = true
    · right
      by_contra h2
      have h3 : less a b = true := by simpa using h2
      have := htrans a b a h3 h1
      simp [hirr a] at this
    · left; simpa using h1⟩
  haveI : IsTrans genre (fun a b => less b a = false) := ⟨by
    intro a b c h1 h2
    by_contra h3
    have h4 : less c a = true := by simpa using h3
    rcases hneg c a b h4 with h5 | h5
    · simp [h2] at h5
    · simp [h1] at h5⟩
  exact List.sorted_insertionSort (fun a b => less b a = false) l

theorem stableSort_of_sorted (less : genre → genre → Bool) (l : List genre)
    (h : l.Pairwise (fun a b => less b a = false)) : stableSort less l = l :=
  List.Sorted.insertionSort_eq h

theorem storedOrderRuntime_valid : storedOrderRuntime.Valid :=
  ⟨fun _ => List.Perm.refl _, stableSort_perm, stableSort_sorted⟩

theorem reversedOrderRuntime_valid : reversedOrderRuntime.Valid :=
  ⟨fun m => List.reverse_perm m, stableSort_perm, stableSort_sorted⟩

theorem chosenOrderRuntime_valid (target : List (String × Nat)) :
    (chosenOrderRuntime target).Valid := by
  refine ⟨?_, stableSort_perm, stableSort_sorted⟩
  intro m
  show (if m.Perm target then target else m).Perm m
  split
  · rename_i h; exact h.symm
  · exact List.Perm.refl _

/-- The entries of the sorted slice are the entries of the map. -/
theorem genresSlice_perm (rt : GoRuntime) (hrt : rt.Valid) (items : List models.Artist) :
    (genresSlice rt items).Perm ((genreCount items).map (fun e => ⟨e.1, e.2⟩)) :=
  (hrt.2.1 _ _).trans ((hrt.1 _).map _)

/-- No entry of the sorted slice is followed by an entry with a larger count. -/
theorem genresSlice_sorted (rt : GoRuntime) (hrt : rt.Valid) (items : List models.Artist) :
    (genresSlice rt items).Pairwise (fun a b => b.Count ≤ a.Count) := by
  have := hrt.2.2 countGreater ((rt.mapRange (genreCount items)).map (fun e => ⟨e.1, e.2⟩))
    isStrictWeak_countGreater
  refine List.Pairwise.imp ?_ this
  intro a b h
  simpa [countGreater] using h

end server

/-! ## Claims on the genre ranking -/

namespace server

/-- The reply of `topArtistsHandler` carries the sorted slice of the fetched response. -/
theorem topArtistsHandler_reply (rt : GoRuntime) (lib : spotify.Lib) (f : repository.Faults)
    (now : String) (h : Handler) (db db2 : repository.DB) (ev : List Event)
    (artists : List repository.Artist) (out : List genre)
    (hreply : topArtistsHandler rt lib f now h db = (db2, ev, .topArtists artists out)) :
    ∃ resp, (spotify.FetchTopArtistsWithParsing lib h.Client).2 = .returned resp none ∧
      out = genresSlice rt resp.Items := by
  unfold topArtistsHandler at hreply
  split at hreply
  · simp at hreply
  · simp at hreply
  · rename_i ev1 resp hfetch
    refine ⟨resp, by rw [hfetch], ?_⟩
    dsimp only at hreply
    split at hreply
    · simp at hreply
    · simp at hreply
    · simp only [Prod.mk.injEq, Reply.topArtists.injEq] at hreply
      exact hreply.2.2.2.symm

theorem pair_of_perm_sorted (out : List genre) (a b : genre) (hab : a.Count < b.Count)
    (hperm : out.Perm [a, b]) (hsorted : out.Pairwise (fun x y => y.Count ≤ x.Count)) :
    out = [b, a] := by
  have hlen := hperm.length_eq
  match out, hlen with
  | [x, y], _ =>
    have hx : x ∈ [a, b] := hperm.subset (by simp)
    have hy : y ∈ [a, b] := hperm.subset (by simp)
    have hxy : y.Count ≤ x.Count := by
      simp only [List.pairwise_cons, List.mem_singleton, forall_eq] at hsorted
      exact hsorted.1
    have hca := hperm.count_eq a
    have hcb := hperm.count_eq b
    have hne : a ≠ b := fun e => by subst e; omega
    simp only [List.mem_cons, List.mem_singleton, List.not_mem_nil, or_false] at hx hy
    rcases hx with hx | hx <;> rcases hy with hy | hy
    · subst hx hy
      simp [List.count_cons, hne] at hcb
    · subst hx hy
      omega
    · subst hx hy
      rfl
    · subst hx hy
      simp [List.count_cons, hne.symm] at hca

/-- C3: in a reply of `topArtistsHandler`, whatever order the map iteration and
`sort.Slice` choose, the genres list holds each distinct genre of the fetched response
exactly once, paired with the number of its occurrences over all artists' genre lists,
and no entry is followed by an entry with a larger count; for the response a1 [rock,
pop], a2 [pop] the list is pop(2), rock(1). -/
theorem topArtistsHandler_genres_ranked (rt : GoRuntime) (hrt : rt.Valid) (lib : spotify.Lib)
    (f : repository.Faults) (now : String) (h : Handler) (db db2 : repository.DB)
    (ev : List Event) (artists : List repository.Artist) (out : List genre)
    (hreply : topArtistsHandler rt lib f now h db = (db2, ev, .topArtists artists out)) :
    ∃ resp, (spotify.FetchTopArtistsWithParsing lib h.Client).2 = .returned resp none ∧
      (out.map genre.Name).Nodup ∧
      (∀ g, g ∈ out.map genre.Name ↔ g ∈ remoteGenres resp.Items) ∧
      (∀ e ∈ out, e.Count = (remoteGenres resp.Items).count e.Name) ∧
      out.Pairwise (fun a b => b.Count ≤ a.Count) ∧
      (resp.Items = exampleItems → out = [⟨"pop", 2⟩, ⟨"rock", 1⟩]) := by
  obtain ⟨resp, hfetch, hout⟩ := topArtistsHandler_reply rt lib f now h db db2 ev artists out hreply
  refine ⟨resp, hfetch, ?_⟩
  subst hout
  have hperm := genresSlice_perm rt hrt resp.Items
  have hsorted := genresSlice_sorted rt hrt resp.Items
  obtain ⟨hnd, hval, hkeys⟩ := Counts_genreCount resp.Items
  have hnames : ((genresSlice rt resp.Items).map genre.Name).Perm
      ((genreCount resp.Items).map Prod.fst) := by
    have := hperm.map genre.Name
    simpa [Function.comp_def] using this
  refine ⟨hnames.nodup_iff.2 hnd, ?_, ?_, hsorted, ?_⟩
  · intro g
    rw [hnames.mem_iff]
    constructor
    · intro hg
      obtain ⟨e, he, rfl⟩ := List.mem_map.1 hg
      exact (hval e he).2
    · exact hkeys g
  · intro e he
    have he2 := hperm.subset he
    obtain ⟨x, hx, rfl⟩ := List.mem_map.1 he2
    exact (hval x hx).1
  · intro hitems
    rw [hitems] at hperm hsorted ⊢
    have hmap : (genreCount exampleItems).map (fun e => (⟨e.1, e.2⟩ : genre))
        = [⟨"rock", 1⟩, ⟨"pop", 2⟩] := by decide
    rw [hmap] at hperm
    exact pair_of_perm_sorted _ ⟨"rock", 1⟩ ⟨"pop", 2⟩ (by decide) hperm hsorted

/-- C3, at the example of the specification, with the keys visited in stored order. -/
theorem topArtistsHandler_genres_ranked_witness :
    topArtistsHandler storedOrderRuntime (decodingTo exampleItems) repository.noFaults "t"
        ⟨initializedClient⟩ repository.emptyDB
      = ((topArtistsHandler storedOrderRuntime (decodingTo exampleItems) repository.noFaults "t"
          ⟨initializedClient⟩ repository.emptyDB).1,
        (topArtistsHandler storedOrderRuntime (decodingTo exampleItems) repository.noFaults "t"
          ⟨initializedClient⟩ repository.emptyDB).2.1,
        .topArtists [⟨"a1", "", 0, 0⟩, ⟨"a2", "", 0, 0⟩] [⟨"pop", 2⟩, ⟨"rock", 1⟩]) ∧
    ∃ resp, (spotify.FetchTopArtistsWithParsing (decodingTo exampleItems)
        (Handler.mk initializedClient).Client).2 = .returned resp none ∧
      (([⟨"pop", 2⟩, ⟨"rock", 1⟩] : List genre).map genre.Name).Nodup :=
  ⟨by decide,
    (topArtistsHandler_genres_ranked storedOrderRuntime storedOrderRuntime_valid
      (decodingTo exampleItems) repository.noFaults "t" ⟨initializedClient⟩ repository.emptyDB
      (topArtistsHandler storedOrderRuntime (decodingTo exampleItems) repository.noFaults "t"
          ⟨initializedClient⟩ repository.emptyDB).1
      (topArtistsHandler storedOrderRuntime (decodingTo exampleItems) repository.noFaults "t"
          ⟨initializedClient⟩ repository.emptyDB).2.1
      [⟨"a1", "", 0, 0⟩, ⟨"a2", "", 0, 0⟩] [⟨"pop", 2⟩, ⟨"rock", 1⟩] (by decide)).imp
      (fun _ hr => ⟨hr.1, hr.2.1⟩)⟩

/-- C4 (as stated, refuted): for the response a1 [rock, pop], a runtime whose `range`
visits the two keys of the map in the order pop, rock yields the list pop(1), rock(1):
the two genres are tied and pop, which appears second in the response, comes first. -/
theorem genresSlice_ties_not_in_remote_order :
    reversedOrderRuntime.Valid ∧
    genresSlice reversedOrderRuntime tiedItems = [⟨"pop", 1⟩, ⟨"rock", 1⟩] ∧
    ¬ tiesInRemoteOrder tiedItems (genresSlice reversedOrderRuntime tiedItems) := by
  refine ⟨reversedOrderRuntime_valid, by decide, ?_⟩
  unfold tiesInRemoteOrder
  decide

/-- C4 (amended): the order of genres with equal counts in the list of `topArtistsHandler`
is not fixed by the remote response. The lists the handler can return for a response are
exactly the arrangements of the (genre, count) entries in which no entry is followed by
an entry with a larger count; entries with equal counts come in the order the map
iteration and `sort.Slice` leave them in. -/
theorem genresSlice_possible_iff (items : List models.Artist) (out : List genre) :
    (∃ rt : GoRuntime, rt.Valid ∧ genresSlice rt items = out) ↔
    (out.Perm ((genreCount items).map (fun e => ⟨e.1, e.2⟩)) ∧
      out.Pairwise (fun a b => b.Count ≤ a.Count)) := by
  constructor
  · rintro ⟨rt, hrt, rfl⟩
    exact ⟨genresSlice_perm rt hrt items, genresSlice_sorted rt hrt items⟩
  · rintro ⟨hperm, hsorted⟩
    refine ⟨chosenOrderRuntime (out.map (fun g => (g.Name, g.Count))),
      chosenOrderRuntime_valid _, ?_⟩
    have hp : (genreCount items).Perm (out.map (fun g => (g.Name, g.Count))) := by
      have := (hperm.map (fun g => (g.Name, g.Count))).symm
      simpa [Function.comp_def] using this
    show stableSort countGreater
      ((if (genreCount items).Perm (out.map (fun g => (g.Name, g.Count)))
        then out.map (fun g => (g.Name, g.Count)) else genreCount items).map
        (fun e => ⟨e.1, e.2⟩)) = out
    rw [if_pos hp]
    have hm : (out.map (fun g => (g.Name, g.Count))).map (fun e => (⟨e.1, e.2⟩ : genre)) = out := by
      simp [Function.comp_def]
    rw [hm]
    apply stableSort_of_sorted
    refine List.Pairwise.imp ?_ hsorted
    intro a b h
    simpa [countGreater] using h

end server

/-! ## Claims on the client, the callback and the collector -/

namespace server

/-- C5 (evaluation of the code): `FetchTopArtistsWithParsing` never reads the status
code. For a client holding a token, whatever status and body the remote side answers
with, the result is what the JSON decoder makes of the body; a 401 answer whose body the
decoder accepts (as `encoding/json` accepts an error object, ignoring its unknown keys)
is returned as a response with a nil error. -/
theorem FetchTopArtistsWithParsing_ignores_status :
    (∀ (lib : spotify.Lib) (c : spotify.Client) (token : spotify.Token) (status : Nat)
        (body : String),
      (spotify.FetchTopArtistsWithParsing lib
          { c with Token := some token, Client := some (answering status body) }).2
        = .returned (lib.unmarshalTopArtists (lib.jsonIndent body)).1
            ((lib.unmarshalTopArtists (lib.jsonIndent body)).2.map Err.json)) ∧
    (spotify.FetchTopArtistsWithParsing (decodingTo [])
        { initializedClient with
          Client := some (answering 401
            "\x7b\"error\":\x7b\"status\":401,\"message\":\"Invalid access token\"\x7d\x7d") }).2
      = .returned spotify.emptyResponse none := by
  constructor
  · intro lib c token status body
    simp [spotify.FetchTopArtistsWithParsing, spotify.makeRequest, answering,
      models.UnmarshalTopArtists]
  · rfl

/-- C8: a request to `/callback` whose query string has no `code` parameter, or an
empty one, is answered with status 400, and the handler does nothing else: the only
event is its `Println`, so there is no token exchange, no client initialisation and no
redirect, and the handler's client and the store are as before. -/
theorem callback_without_code (lib : spotify.Lib) (insertUserFails : Bool) (h : Handler)
    (db : repository.DB) (query : List (String × String))
    (hcode : queryGet query "code" = "") :
    callback lib insertUserFails h db query
      = (h, db, [.print "bise"], .httpError "Code not provided" none 400) := by
  simp [callback, hcode]

/-- C8, at a request whose query string is `state=s`, and at one with `code=`. -/
theorem callback_without_code_witness :
    queryGet [("state", "s")] "code" = "" ∧ queryGet [("code", "")] "code" = "" ∧
    (callback (decodingTo []) false ⟨initializedClient⟩ repository.emptyDB
        [("state", "s")]).2.2
      = ([.print "bise"], .httpError "Code not provided" none 400) :=
  ⟨by decide, by decide,
    congrArg (fun r => r.2.2)
      (callback_without_code (decodingTo []) false ⟨initializedClient⟩ repository.emptyDB
        [("state", "s")] (by decide))⟩

/-- C9 (evaluation of the code): on the client that `main` builds (no token, an HTTP
client present) a pass of `PeriodicallyFetchData` does not take the wait-and-retry
branch: the guard tests the receiver pointer, which is not nil, so the pass calls
`FetchTopArtistsWithParsing` and `makeRequest`, and `makeRequest` panics on the nil
token before the request is sent. -/
theorem PeriodicallyFetchData_without_token (lib : spotify.Lib) (f : repository.Faults)
    (now clientID clientSecret : String) (httpClient : spotify.HTTPClient)
    (db : repository.DB) :
    (main clientID clientSecret httpClient db).spotifyClient.Token = none ∧
    spotify.PeriodicallyFetchData lib f now
        (some (main clientID clientSecret httpClient db).spotifyClient) db
      = ([.fetchTopArtists, .makeRequest spotify.topArtistsURL], db, .panicked) ∧
    spotify.PeriodicallyFetchData lib f now none db
      = ([.log "Spotify client not initialized yet", .sleepMinutes 1], db, .next) := by
  refine ⟨rfl, rfl, rfl⟩

/-- C10 (evaluation of the code): `NewHandler` copies the client, so a callback never
changes the client the collector runs on. After any request to `/callback` the client
of `main` still has no token and no user id; and in a run where the callback succeeds
(redirect to `/top-artists`, the handler's client holding token `tok` and user `u`) the
next pass of the collector still panics on the nil token. -/
theorem callback_does_not_reach_collector :
    (∀ (lib : spotify.Lib) (insertUserFails : Bool) (clientID clientSecret : String)
        (httpClient : spotify.HTTPClient) (db : repository.DB)
        (query : List (String × String)),
      ((main clientID clientSecret httpClient db).serveCallback lib insertUserFails
          query).1.spotifyClient.Token = none ∧
      ((main clientID clientSecret httpClient db).serveCallback lib insertUserFails
          query).1.spotifyClient.UserID = "") ∧
    ((main "id" "secret" (answering 200 "") repository.emptyDB).serveCallback
        (decodingTo []) false [("code", "c")]).2.2 = .redirect "/top-artists" 302 ∧
    ((main "id" "secret" (answering 200 "") repository.emptyDB).serveCallback
        (decodingTo []) false [("code", "c")]).1.spotifyHandler.Client.Token
      = some ⟨"tok"⟩ ∧
    ((main "id" "secret" (answering 200 "") repository.emptyDB).serveCallback
        (decodingTo []) false [("code", "c")]).1.spotifyHandler.Client.UserID = "u" ∧
    ((main "id" "secret" (answering 200 "") repository.emptyDB).serveCallback
        (decodingTo []) false [("code", "c")]).1.spotifyClient.Token = none ∧
    ((((main "id" "secret" (answering 200 "") repository.emptyDB).serveCallback
        (decodingTo []) false [("code", "c")]).1.collectorPass (decodingTo [])
        repository.noFaults "t").2.2) = .panicked := by
  refine ⟨?_, by decide, by decide, by decide, by decide, by decide⟩
  intro lib insertUserFails clientID clientSecret httpClient db query
  constructor <;> rfl

end server
